import Mathlib

/-!
Verification of the balance-consistency and transactional-mutation subsystem
of the149-store: the Postgres stored procedures and triggers of
`supabase/migrations/20240000000001_initial_schema.sql`, the zustand store in
`src/lib/store.ts`, and the mutation handlers in the sales / expenses /
deposits components.  Monetary amounts, prices, stocks and quantities are SQL
`integer` / TypeScript `number` values holding integers, embedded as `Int`.
Each stored procedure runs inside a single transaction: raising an exception
aborts the transaction leaving the database unchanged, which we embed by
returning the input state unchanged in the error case.
-/

/-- A row of the `categories` table (migration lines 41-47), as fetched by the
client (`id, price, stock`). -/
structure CatRow where
  id : String
  price : Int
  stock : Int
deriving Repr, DecidableEq

/-- The singleton `balances` row (migration lines 84-89): `shop_balance` and
`bank_balance` are plain integers with no check constraint. -/
structure BalanceRow where
  shop_balance : Int
  bank_balance : Int
deriving Repr, DecidableEq

/-- An `expenses` row (migration lines 61-70), restricted to the fields the
claims are about. -/
structure ExpenseRow where
  purpose : String
  amount : Int
  cash_amount : Int
  online_amount : Int
deriving Repr, DecidableEq

/-- The category snapshot stored inside a sale item (`Sale.items[i].category`
in `src/lib/store.ts` lines 34-41). -/
structure SaleItemCat where
  id : String
  price : Int
  stock : Int
deriving Repr, DecidableEq

/-- One line item of a sale: category snapshot plus quantity. -/
structure SaleItem where
  category : SaleItemCat
  quantity : Int
deriving Repr, DecidableEq

/-- The server-side database state the mutation procedures touch: the
singleton balances row, the categories table and the append-only expenses
table. -/
structure DB where
  balances : BalanceRow
  categories : List CatRow
  expenses : List ExpenseRow
deriving Repr, DecidableEq

/-- Validation errors raised by `handle_expense` (migration lines 355-366). -/
inductive ExpenseError where
  | cashExceedsShop
  | onlineExceedsBank
deriving Repr, DecidableEq

/-- The `handle_expense` stored procedure (migration lines 335-399): reads the
balances row under a `for update` lock, validates `cash_amt > shop_balance`
and `online_amt > bank_balance` against that locked snapshot, inserts the
expense row with `amount = cash_amt + online_amt`, and writes back
`v_shop_balance - cash_amt` / `v_bank_balance - online_amt`, i.e. values
derived from the same locked snapshot it validated. -/
def handle_expense (bal : BalanceRow) (expense_purpose : String)
    (cash_amt online_amt : Int) : Except ExpenseError (BalanceRow × ExpenseRow) :=
  if cash_amt > bal.shop_balance then .error .cashExceedsShop
  else if online_amt > bal.bank_balance then .error .onlineExceedsBank
  else .ok ({ shop_balance := bal.shop_balance - cash_amt,
              bank_balance := bal.bank_balance - online_amt },
            { purpose := expense_purpose,
              amount := cash_amt + online_amt,
              cash_amount := cash_amt,
              online_amount := online_amt })

/-- The expense mutation at database level: `handle_expense` runs in one
transaction, so an exception rolls everything back — balances, stocks and the
expenses table are untouched; on success the balances row is replaced and the
expense row appended. -/
def recordExpense (db : DB) (expense_purpose : String) (cash_amt online_amt : Int) :
    DB × Option ExpenseError :=
  match handle_expense db.balances expense_purpose cash_amt online_amt with
  | .error e => (db, some e)
  | .ok (bal', row) =>
      ({ db with balances := bal', expenses := db.expenses ++ [row] }, none)

/-- The `update_balances_for_deposit` trigger function (migration lines
317-333): fired on every insert into `deposits`, it unconditionally moves
`amount` from the shop balance to the bank balance. -/
def update_balances_for_deposit (bal : BalanceRow) (amount : Int) : BalanceRow :=
  { shop_balance := bal.shop_balance - amount,
    bank_balance := bal.bank_balance + amount }

/-- The deposit submission path (`handleSubmit` in src/unnamed/part_009 lines
342-417): rejects a non-positive parsed amount and an amount exceeding the
current shop balance, otherwise inserts the deposit row, upon which the
`update_balances_after_deposit` trigger applies
`update_balances_for_deposit`.  The returned option is the user-facing error
message, `none` meaning the deposit committed. -/
def recordDeposit (db : DB) (amount : Int) : DB × Option String :=
  if amount ≤ 0 then (db, some "Please enter a valid amount")
  else if amount > db.balances.shop_balance then
    (db, some "Deposit amount cannot exceed available balance")
  else ({ db with balances := update_balances_for_deposit db.balances amount }, none)

/-- The stored procedure `handle_expense` does implement the transactional
expense commit: `amount = cash + online`, both balances decremented by their
parts, preconditions evaluated against the very snapshot the written values
are derived from.  This is the intended behaviour; no routed component
actually reaches this procedure (see `expensesHandleSubmit` below). -/
theorem handle_expense_commit (bal : BalanceRow) (p : String) (c o : Int)
    (bal' : BalanceRow) (row : ExpenseRow)
    (h : handle_expense bal p c o = .ok (bal', row)) :
    row.amount = c + o ∧
    bal'.shop_balance = bal.shop_balance - c ∧
    bal'.bank_balance = bal.bank_balance - o ∧
    c ≤ bal.shop_balance ∧ o ≤ bal.bank_balance := by
  unfold handle_expense at h
  by_cases hc : c > bal.shop_balance
  · simp [hc] at h
  · by_cases ho : o > bal.bank_balance
    · simp [hc, ho] at h
    · simp [hc, ho] at h
      obtain ⟨hb, hr⟩ := h
      subst hb; subst hr
      exact ⟨rfl, rfl, rfl, le_of_not_lt hc, le_of_not_lt ho⟩

/-- Concrete instance of `handle_expense_commit` at shop = 100, bank = 50,
cash = 30, online = 20. -/
theorem handle_expense_commit_witness :
    ({ shop_balance := 70, bank_balance := 30 } : BalanceRow).shop_balance = 100 - 30 := by
  have h := handle_expense_commit { shop_balance := 100, bank_balance := 50 } "rent" 30 20
    { shop_balance := 70, bank_balance := 30 }
    { purpose := "rent", amount := 50, cash_amount := 30, online_amount := 20 }
    rfl
  exact h.2.1

/-- C4: an expense call that fails validation leaves the database — balances,
every category stock, and the expenses table — exactly as it was, and reports
an error. -/
theorem recordExpense_failed_rollback (db : DB) (p : String) (c o : Int)
    (h : c > db.balances.shop_balance ∨ o > db.balances.bank_balance) :
    ∃ e, recordExpense db p c o = (db, some e) := by
  unfold recordExpense handle_expense
  by_cases hc : c > db.balances.shop_balance
  · exact ⟨.cashExceedsShop, by simp [hc]⟩
  · have ho : o > db.balances.bank_balance := h.resolve_left hc
    exact ⟨.onlineExceedsBank, by simp [hc, ho]⟩

/-- Witness for C4: cash 150 against shop balance 100 is rejected and the
database value is returned unchanged. -/
theorem recordExpense_failed_rollback_witness :
    ∃ e, recordExpense
        { balances := { shop_balance := 100, bank_balance := 50 },
          categories := [{ id := "a", price := 149, stock := 3 }],
          expenses := [] } "tea" 150 0 =
      ({ balances := { shop_balance := 100, bank_balance := 50 },
         categories := [{ id := "a", price := 149, stock := 3 }],
         expenses := [] }, some e) :=
  recordExpense_failed_rollback
    { balances := { shop_balance := 100, bank_balance := 50 },
      categories := [{ id := "a", price := 149, stock := 3 }],
      expenses := [] } "tea" 150 0 (Or.inl (by decide))

/-- C5: a committed deposit moves exactly `amount` from the shop balance to the
bank balance, leaving the sum of the two balances unchanged. -/
theorem recordDeposit_conservation (db : DB) (amount : Int) (db' : DB)
    (h : recordDeposit db amount = (db', none)) :
    db'.balances.shop_balance = db.balances.shop_balance - amount ∧
    db'.balances.bank_balance = db.balances.bank_balance + amount ∧
    db'.balances.shop_balance + db'.balances.bank_balance =
      db.balances.shop_balance + db.balances.bank_balance := by
  unfold recordDeposit at h
  by_cases h0 : amount ≤ 0
  · simp [h0] at h
  · by_cases h1 : amount > db.balances.shop_balance
    · simp [h0, h1] at h
    · simp [h0, h1] at h
      subst h
      refine ⟨rfl, rfl, ?_⟩
      simp [update_balances_for_deposit]

/-- Witness for C5: depositing 4 out of shop = 10, bank = 5 gives shop = 6,
bank = 9, sum still 15. -/
theorem recordDeposit_conservation_witness :
    ({ balances := { shop_balance := 6, bank_balance := 9 },
       categories := [], expenses := [] } : DB).balances.shop_balance = 10 - 4 :=
  (recordDeposit_conservation
    { balances := { shop_balance := 10, bank_balance := 5 },
      categories := [], expenses := [] } 4
    { balances := { shop_balance := 6, bank_balance := 9 },
      categories := [], expenses := [] } (by decide)).1

/-- Validation errors of the sale procedure (spec §4.1 error taxonomy). -/
inductive SaleError where
  | insufficientStock (categoryId : String)
  | categoryNotFound (categoryId : String)
  | paymentMismatch
deriving Repr, DecidableEq

/-- Look a category up by id (first matching row). -/
def findCat : List CatRow → String → Option CatRow
  | [], _ => none
  | c :: cs, cid => if c.id == cid then some c else findCat cs cid

/-- Decrement the stock of the category with the given id by `q`. -/
def decStock (cats : List CatRow) (cid : String) (q : Int) : List CatRow :=
  cats.map (fun c => if c.id == cid then { c with stock := c.stock - q } else c)

/-- Process the items of a sale left to right: each item's category must exist
and hold at least the sold quantity at the moment the item is processed;
otherwise the whole operation aborts (the caller keeps the old state, so no
decrement from a failed sale survives). -/
def applySaleItems : List CatRow → List SaleItem → Except SaleError (List CatRow)
  | cats, [] => .ok cats
  | cats, it :: rest =>
      match findCat cats it.category.id with
      | none => .error (.categoryNotFound it.category.id)
      | some c =>
          if it.quantity > c.stock then .error (.insufficientStock it.category.id)
          else applySaleItems (decStock cats it.category.id it.quantity) rest

/-- Sum of `price × quantity` over the items of a sale. -/
def itemsTotal (items : List SaleItem) : Int :=
  items.foldl (fun a it => a + it.category.price * it.quantity) 0

/-- The `update_balances_for_sale` trigger function (migration lines 292-315):
fired on every insert into `sales`, it adds the cash part of the payment to
the shop balance and the online part to the bank balance. -/
def update_balances_for_sale (bal : BalanceRow) (cash online : Int) : BalanceRow :=
  { shop_balance := bal.shop_balance + cash,
    bank_balance := bal.bank_balance + online }

/-- Modelled from the spec: the `handle_sale` stored procedure invoked by
`completeSale` (src/src/lib/store.ts lines 561-567) is not defined anywhere in
the repository.  Following spec §4.2 RecordSale: every item's quantity must be
at most that category's current stock, aborting with InsufficientStock naming
the offending category and no stock decrement surviving the abort; the payment
must satisfy `cash + online = sum of price × quantity over the items`,
aborting with PaymentMismatch otherwise; on success the category stocks are
decremented and the `update_balances_for_sale` trigger (which is in the
migration) credits the two balances. -/
def handle_sale (db : DB) (items : List SaleItem) (cash online : Int) :
    Except SaleError DB :=
  match applySaleItems db.categories items with
  | .error e => .error e
  | .ok cats' =>
      if cash + online ≠ itemsTotal items then .error .paymentMismatch
      else .ok { db with
                 categories := cats',
                 balances := update_balances_for_sale db.balances cash online }

/-- Outcome of the client sale flow: either the client-side payment check
throws, or the server procedure rejects, or the sale commits. -/
inductive ClientSaleError where
  | paymentMustMatchTotal
  | server (e : SaleError)
deriving Repr, DecidableEq

/-- The running total kept by the sales screen (src/unnamed/part_005 lines
122-127): the sum over all categories of entered quantity times price, the
quantity defaulting to 0. -/
def saleTotal (cats : List CatRow) (q : Int → Int) : Int :=
  cats.foldl (fun a c => a + q c.price * c.price) 0

/-- The item list the sales screen builds (src/unnamed/part_005 lines
279-288): one item per category with a positive entered quantity, carrying a
snapshot of the category. -/
def saleItemsOf (cats : List CatRow) (q : Int → Int) : List SaleItem :=
  (cats.filter (fun c => q c.price > 0)).map
    (fun c => { category := { id := c.id, price := c.price, stock := c.stock },
                quantity := q c.price })

/-- The `handleCompleteSale` handler (src/unnamed/part_005 lines 236-346):
first validates `cash + online = total` and throws "Payment amount must match
the total amount" without touching any state; otherwise it optimistically
decrements local stock, calls the sale procedure, and on any error reverts the
local categories to the captured pre-call slice, so a failed call leaves the
state unchanged. -/
def handleCompleteSale (db : DB) (q : Int → Int) (cash online : Int) :
    DB × Option ClientSaleError :=
  if cash + online ≠ saleTotal db.categories q then
    (db, some .paymentMustMatchTotal)
  else
    match handle_sale db (saleItemsOf db.categories q) cash online with
    | .error e => (db, some (.server e))
    | .ok db' => (db', none)


theorem decStock_id_eq (c : CatRow) (cid : String) (q : Int) :
    (if c.id == cid then { c with stock := c.stock - q } else c).id = c.id := by
  by_cases h : c.id == cid <;> simp [h]

theorem findCat_decStock (cats : List CatRow) (cid x : String) (q : Int) :
    findCat (decStock cats cid q) x =
      (findCat cats x).map
        (fun c => if c.id == cid then { c with stock := c.stock - q } else c) := by
  induction cats with
  | nil => rfl
  | cons c cs ih =>
      simp only [decStock, List.map_cons] at ih ⊢
      simp only [findCat]
      rw [decStock_id_eq]
      by_cases hx : (c.id == x) = true
      · simp [hx]
      · simp [hx]
        simpa using ih

theorem findCat_eq_of_mem (cats : List CatRow)
    (hnd : (cats.map (fun c => c.id)).Nodup)
    (c : CatRow) (hc : c ∈ cats) (cid : String) (hid : c.id = cid) :
    findCat cats cid = some c := by
  induction cats with
  | nil => cases hc
  | cons c0 cs ih =>
      simp only [List.map_cons, List.nodup_cons] at hnd
      rcases List.mem_cons.mp hc with h | h
      · subst h
        simp [findCat, hid]
      · have hne : ¬(c0.id == cid) = true := by
          intro hb
          apply hnd.1
          have hb' : c0.id = cid := by simpa using hb
          rw [hb', ← hid]
          exact List.mem_map_of_mem (fun c => c.id) h
        simp only [findCat, hne, if_false]
        exact ih hnd.2 h

theorem applySaleItems_err_of_exceeds :
    ∀ (items : List SaleItem) (cats : List CatRow),
      (∀ it ∈ items, 0 ≤ it.quantity) →
      (∀ it ∈ items, (findCat cats it.category.id).isSome) →
      (∃ it ∈ items, ∃ c, findCat cats it.category.id = some c ∧ c.stock < it.quantity) →
      ∃ cid, applySaleItems cats items = .error (.insufficientStock cid) := by
  intro items
  induction items with
  | nil =>
      intro cats _ _ hw
      obtain ⟨it, hmem, _⟩ := hw
      cases hmem
  | cons it0 rest ih =>
      intro cats hq hex hw
      have hex0 := hex it0 (List.mem_cons_self it0 rest)
      obtain ⟨c0, hc0⟩ := Option.isSome_iff_exists.mp hex0
      by_cases hfail : c0.stock < it0.quantity
      · refine ⟨it0.category.id, ?_⟩
        simp only [applySaleItems, hc0]
        simp [hfail]
      · obtain ⟨itw, hmemw, cw, hfw, hsw⟩ := hw
        rcases List.mem_cons.mp hmemw with h | h
        · subst h
          rw [hfw] at hc0
          injection hc0 with hceq
          subst hceq
          exact absurd hsw hfail
        · have hstep : applySaleItems cats (it0 :: rest) =
              applySaleItems (decStock cats it0.category.id it0.quantity) rest := by
            simp only [applySaleItems, hc0]
            simp [hfail]
          rw [hstep]
          apply ih
          · intro it hit
            exact hq it (List.mem_cons_of_mem _ hit)
          · intro it hit
            rw [findCat_decStock]
            have hs := hex it (List.mem_cons_of_mem _ hit)
            cases hfind : findCat cats it.category.id with
            | none => rw [hfind] at hs; simp at hs
            | some c => simp
          · refine ⟨itw, h, ?_⟩
            rw [findCat_decStock, hfw]
            refine ⟨_, rfl, ?_⟩
            have hq0 : 0 ≤ it0.quantity := hq it0 (List.mem_cons_self it0 rest)
            by_cases hcw : (cw.id == it0.category.id) = true
            · simp only [hcw, if_true]
              show cw.stock - it0.quantity < itw.quantity
              omega
            · simp only [hcw, if_false]
              exact hsw

theorem applySaleItems_ok_nonneg :
    ∀ (items : List SaleItem) (cats cats' : List CatRow),
      (cats.map (fun c => c.id)).Nodup →
      (∀ c ∈ cats, 0 ≤ c.stock) →
      applySaleItems cats items = .ok cats' →
      ∀ c ∈ cats', 0 ≤ c.stock := by
  intro items
  induction items with
  | nil =>
      intro cats cats' _ hpos hok
      simp only [applySaleItems] at hok
      injection hok with h
      subst h
      exact hpos
  | cons it0 rest ih =>
      intro cats cats' hnd hpos hok
      cases hc0 : findCat cats it0.category.id with
      | none =>
          simp only [applySaleItems, hc0] at hok
          exact Except.noConfusion hok
      | some c0 =>
          simp only [applySaleItems, hc0] at hok
          by_cases hfail : c0.stock < it0.quantity
          · simp [hfail] at hok
          · rw [if_neg hfail] at hok
            apply ih (decStock cats it0.category.id it0.quantity) cats' ?_ ?_ hok
            · have : (decStock cats it0.category.id it0.quantity).map (fun c => c.id) =
                  cats.map (fun c => c.id) := by
                simp only [decStock, List.map_map]
                apply List.map_congr_left
                intro a _
                exact decStock_id_eq a it0.category.id it0.quantity
              rw [this]
              exact hnd
            · intro c hc
              simp only [decStock, List.mem_map] at hc
              obtain ⟨c1, hc1, hceq⟩ := hc
              by_cases hcid : (c1.id == it0.category.id) = true
              · have hc1eq : c1 = c0 := by
                  have := findCat_eq_of_mem cats hnd c1 hc1 it0.category.id (by simpa using hcid)
                  rw [this] at hc0
                  injection hc0
                subst hc1eq
                rw [← hceq]
                simp only [hcid, if_true]
                show 0 ≤ c1.stock - it0.quantity
                omega
              · rw [← hceq]
                simp only [hcid, if_false]
                exact hpos c1 hc1

/-- C2: a sale in which some item's quantity exceeds that category's stock is
rejected in full with InsufficientStock — in the functional embedding the
rejection returns no new state, so no stock decrement of any item of the sale
is applied — and, dually, every committed sale leaves every category's stock
non-negative.  Quantities are non-negative because the sales screen clamps
them (src/unnamed/part_005 line 84) and only keeps positive ones (line 280);
category ids are distinct because `id` is the primary key. -/
theorem handle_sale_stock_law (db : DB) (items : List SaleItem) (cash online : Int) :
    ((∀ it ∈ items, 0 ≤ it.quantity) →
     (∀ it ∈ items, (findCat db.categories it.category.id).isSome) →
     (∃ it ∈ items, ∃ c, findCat db.categories it.category.id = some c ∧
        c.stock < it.quantity) →
     ∃ cid, handle_sale db items cash online = .error (.insufficientStock cid)) ∧
    ((db.categories.map (fun c => c.id)).Nodup →
     (∀ c ∈ db.categories, 0 ≤ c.stock) →
     ∀ db', handle_sale db items cash online = .ok db' →
     ∀ c ∈ db'.categories, 0 ≤ c.stock) := by
  constructor
  · intro hq hex hw
    obtain ⟨cid, herr⟩ := applySaleItems_err_of_exceeds items db.categories hq hex hw
    exact ⟨cid, by simp only [handle_sale, herr]⟩
  · intro hnd hpos db' hok c hc
    cases happly : applySaleItems db.categories items with
    | error e =>
        simp only [handle_sale, happly] at hok
        exact Except.noConfusion hok
    | ok cats' =>
        simp only [handle_sale, happly] at hok
        by_cases hpay : cash + online ≠ itemsTotal items
        · rw [if_pos hpay] at hok; exact Except.noConfusion hok
        · rw [if_neg hpay] at hok
          injection hok with hok
          subst hok
          exact applySaleItems_ok_nonneg items db.categories cats' hnd hpos happly c hc

/-- Witness for C2: selling 2 units of a category holding 1 is rejected with
InsufficientStock, and a sale of 1 unit of a category holding 3 leaves
non-negative stock. -/
theorem handle_sale_stock_law_witness :
    ∃ cid, handle_sale
        { balances := { shop_balance := 0, bank_balance := 0 },
          categories := [{ id := "a", price := 149, stock := 1 }],
          expenses := [] }
        [{ category := { id := "a", price := 149, stock := 1 }, quantity := 2 }]
        298 0 = .error (.insufficientStock cid) :=
  (handle_sale_stock_law
    { balances := { shop_balance := 0, bank_balance := 0 },
      categories := [{ id := "a", price := 149, stock := 1 }],
      expenses := [] }
    [{ category := { id := "a", price := 149, stock := 1 }, quantity := 2 }]
    298 0).1
    (by decide)
    (by decide)
    ⟨{ category := { id := "a", price := 149, stock := 1 }, quantity := 2 },
      List.mem_singleton.mpr rfl,
      { id := "a", price := 149, stock := 1 }, by decide, by decide⟩

theorem saleTotal_foldl_eq (q : Int → Int) (hq : ∀ p, 0 ≤ q p) :
    ∀ (cats : List CatRow) (a : Int),
      cats.foldl (fun a c => a + q c.price * c.price) a =
      (saleItemsOf cats q).foldl (fun a it => a + it.category.price * it.quantity) a := by
  intro cats
  induction cats with
  | nil => intro a; rfl
  | cons c cs ih =>
      intro a
      simp only [saleItemsOf, List.filter_cons] at ih ⊢
      by_cases hpos : 0 < q c.price
      · rw [if_pos (by simpa using hpos)]
        simp only [List.map_cons, List.foldl_cons]
        rw [ih]
        rw [mul_comm (q c.price) c.price]
      · have hzero : q c.price = 0 := le_antisymm (not_lt.mp hpos) (hq c.price)
        rw [if_neg (by simpa using hpos)]
        simp only [List.foldl_cons, hzero]
        rw [ih]
        rw [zero_mul, add_zero]

theorem saleTotal_eq_itemsTotal (cats : List CatRow) (q : Int → Int)
    (hq : ∀ p, 0 ≤ q p) :
    saleTotal cats q = itemsTotal (saleItemsOf cats q) :=
  saleTotal_foldl_eq q hq cats 0

theorem applySaleItems_ne_paymentMismatch :
    ∀ (items : List SaleItem) (cats : List CatRow),
      applySaleItems cats items ≠ .error .paymentMismatch := by
  intro items
  induction items with
  | nil => intro cats h; exact Except.noConfusion h
  | cons it0 rest ih =>
      intro cats h
      cases hc0 : findCat cats it0.category.id with
      | none =>
          simp only [applySaleItems, hc0] at h
          injection h with h0
          exact SaleError.noConfusion h0
      | some c0 =>
          simp only [applySaleItems, hc0] at h
          by_cases hfail : c0.stock < it0.quantity
          · simp [hfail] at h
          · rw [if_neg hfail] at h
            exact ih (decStock cats it0.category.id it0.quantity) h

/-- C6: a sale whose payment does not balance — cash + online differing from
the sum of price times quantity over the items — is rejected by the client
check ("Payment amount must match the total amount") before any state is
touched and before the server is called; and a sale whose payment does
balance is never rejected on payment grounds, neither by the client check nor
by the procedure's PaymentMismatch.  Entered quantities are non-negative
because the sales screen clamps them with Math.max(0, ...). -/
theorem handleCompleteSale_payment_law (db : DB) (q : Int → Int) (cash online : Int)
    (hq : ∀ p, 0 ≤ q p) :
    (cash + online ≠ itemsTotal (saleItemsOf db.categories q) →
      handleCompleteSale db q cash online = (db, some .paymentMustMatchTotal)) ∧
    (cash + online = itemsTotal (saleItemsOf db.categories q) →
      (handleCompleteSale db q cash online).2 ≠ some .paymentMustMatchTotal ∧
      (handleCompleteSale db q cash online).2 ≠ some (.server .paymentMismatch)) := by
  have htot : saleTotal db.categories q = itemsTotal (saleItemsOf db.categories q) :=
    saleTotal_eq_itemsTotal db.categories q hq
  constructor
  · intro hne
    unfold handleCompleteSale
    rw [htot, if_pos hne]
  · intro heq
    have hcond : ¬(cash + online ≠ saleTotal db.categories q) := by rw [htot]; exact not_not_intro heq
    unfold handleCompleteSale
    rw [if_neg hcond]
    cases hs : handle_sale db (saleItemsOf db.categories q) cash online with
    | error e =>
        have hepm : e ≠ .paymentMismatch := by
          intro hcontra
          subst hcontra
          cases happly : applySaleItems db.categories (saleItemsOf db.categories q) with
          | error e0 =>
              simp only [handle_sale, happly] at hs
              injection hs with hs0
              subst hs0
              exact applySaleItems_ne_paymentMismatch (saleItemsOf db.categories q)
                db.categories happly
          | ok cats' =>
              simp only [handle_sale, happly] at hs
              rw [if_neg (not_not_intro heq)] at hs
              exact Except.noConfusion hs
        constructor
        · simp
        · simp [hepm]
    | ok db' =>
        constructor <;> simp

/-- Witness for C6: one category at price 149 with quantity 2 gives an item
total of 298; payment cash 200 online 50 is rejected with the client payment
error, leaving the database untouched. -/
theorem handleCompleteSale_payment_law_witness :
    handleCompleteSale
        { balances := { shop_balance := 0, bank_balance := 0 },
          categories := [{ id := "a", price := 149, stock := 5 }],
          expenses := [] }
        (fun p => if p = 149 then 2 else 0) 200 50 =
      ({ balances := { shop_balance := 0, bank_balance := 0 },
         categories := [{ id := "a", price := 149, stock := 5 }],
         expenses := [] }, some .paymentMustMatchTotal) :=
  (handleCompleteSale_payment_law
    { balances := { shop_balance := 0, bank_balance := 0 },
      categories := [{ id := "a", price := 149, stock := 5 }],
      expenses := [] }
    (fun p => if p = 149 then 2 else 0) 200 50
    (fun p => by by_cases h : p = 149 <;> simp [h])).1 (by decide)

/-- A committed-or-attempted ledger mutation: the three operation kinds of the
transactional core. -/
inductive Op where
  | sale (items : List SaleItem) (cash online : Int)
  | expense (expense_purpose : String) (cash online : Int)
  | deposit (amount : Int)
deriving Repr

/-- One dispatcher call at the ledger level: a rejected operation leaves the
database unchanged (the transaction aborts / the client never inserts), a
committed one applies its procedure's effect. -/
def step (db : DB) : Op → DB
  | .sale items cash online =>
      match handle_sale db items cash online with
      | .error _ => db
      | .ok db' => db'
  | .expense p c o => (recordExpense db p c o).1
  | .deposit a => (recordDeposit db a).1

/-- A sequence of ledger operations applied in order. -/
def run (db : DB) (ops : List Op) : DB := ops.foldl step db

/-- The initial ledger state: the migration (lines 103-106) seeds the balances
row with shop_balance = 0 and bank_balance = 0. -/
def initialDB (cats : List CatRow) : DB :=
  { balances := { shop_balance := 0, bank_balance := 0 },
    categories := cats, expenses := [] }

/-- Both balances non-negative. -/
def nonNegBalances (db : DB) : Prop :=
  0 ≤ db.balances.shop_balance ∧ 0 ≤ db.balances.bank_balance

/-- A sale operation carries non-negative cash and online payment parts; the
other operations are unconstrained. -/
def saleNonNegPayment : Op → Prop
  | .sale _ cash online => 0 ≤ cash ∧ 0 ≤ online
  | _ => True

theorem step_preserves_nonneg (db : DB) (op : Op)
    (hdb : nonNegBalances db) (hop : saleNonNegPayment op) :
    nonNegBalances (step db op) := by
  cases op with
  | sale items cash online =>
      obtain ⟨hcash, honline⟩ := hop
      simp only [step]
      cases hs : handle_sale db items cash online with
      | error e => exact hdb
      | ok db' =>
          cases happly : applySaleItems db.categories items with
          | error e0 =>
              simp only [handle_sale, happly] at hs
              exact Except.noConfusion hs
          | ok cats' =>
              simp only [handle_sale, happly] at hs
              by_cases hpay : cash + online ≠ itemsTotal items
              · rw [if_pos hpay] at hs
                exact Except.noConfusion hs
              · rw [if_neg hpay] at hs
                injection hs with hs0
                subst hs0
                constructor
                · show 0 ≤ db.balances.shop_balance + cash
                  exact add_nonneg hdb.1 hcash
                · show 0 ≤ db.balances.bank_balance + online
                  exact add_nonneg hdb.2 honline
  | expense p c o =>
      simp only [step, recordExpense]
      cases hhe : handle_expense db.balances p c o with
      | error e => exact hdb
      | ok pr =>
          obtain ⟨bal', row⟩ := pr
          simp only []
          unfold handle_expense at hhe
          by_cases hc : c > db.balances.shop_balance
          · rw [if_pos hc] at hhe
            exact Except.noConfusion hhe
          · rw [if_neg hc] at hhe
            by_cases ho : o > db.balances.bank_balance
            · rw [if_pos ho] at hhe
              exact Except.noConfusion hhe
            · rw [if_neg ho] at hhe
              injection hhe with hhe0
              injection hhe0 with hbal hrow
              subst hbal
              constructor
              · show 0 ≤ db.balances.shop_balance - c
                omega
              · show 0 ≤ db.balances.bank_balance - o
                omega
  | deposit a =>
      simp only [step, recordDeposit]
      by_cases h0 : a ≤ 0
      · rw [if_pos h0]
        exact hdb
      · rw [if_neg h0]
        by_cases h1 : a > db.balances.shop_balance
        · rw [if_pos h1]
          exact hdb
        · rw [if_neg h1]
          constructor
          · show 0 ≤ db.balances.shop_balance - a
            omega
          · show 0 ≤ db.balances.bank_balance + a
            have := hdb.2
            omega

theorem run_preserves_nonneg :
    ∀ (ops : List Op) (db : DB), nonNegBalances db →
      (∀ op ∈ ops, saleNonNegPayment op) → nonNegBalances (run db ops) := by
  intro ops
  induction ops with
  | nil => intro db hdb _; exact hdb
  | cons op ops ih =>
      intro db hdb hops
      have h1 : nonNegBalances (step db op) :=
        step_preserves_nonneg db op hdb (hops op (List.mem_cons_self op ops))
      have h2 : ∀ o ∈ ops, saleNonNegPayment o :=
        fun o ho => hops o (List.mem_cons_of_mem _ ho)
      exact ih (step db op) h1 h2

/-- Counterexample to C1 as stated: from the initial ledger state with one
category (id "a", price 5, stock 1), the single sale of 1 unit with payment
cash = -1, online = 6 balances (−1 + 6 = 5 = price × quantity), passes the
stock check, and commits — no code path checks the sign of the payment parts
(the payment inputs in src/unnamed/part_005 lines 517-530 have no minimum and
`handleCompleteSale` only compares the sum to the total) — leaving
shop_balance = −1 < 0. -/
theorem balances_invariant_counterexample :
    (run (initialDB [{ id := "a", price := 5, stock := 1 }])
        [.sale [{ category := { id := "a", price := 5, stock := 1 }, quantity := 1 }]
          (-1) 6]).balances.shop_balance < 0 := by decide

/-- C1 amended: provided every committed sale's cash and online payment parts
are non-negative, shop_balance ≥ 0 and bank_balance ≥ 0 hold after every
sequence of committed sale, expense and deposit operations from the initial
ledger state; and a deposit whose amount exceeds the current shop balance is
rejected without changing the state. -/
theorem balances_invariant (cats : List CatRow) (ops : List Op)
    (h : ∀ op ∈ ops, saleNonNegPayment op) :
    nonNegBalances (run (initialDB cats) ops) ∧
    ∀ a, (run (initialDB cats) ops).balances.shop_balance < a →
      ∃ msg, recordDeposit (run (initialDB cats) ops) a =
        (run (initialDB cats) ops, some msg) := by
  constructor
  · exact run_preserves_nonneg ops (initialDB cats) ⟨le_refl 0, le_refl 0⟩ h
  · intro a ha
    unfold recordDeposit
    by_cases h0 : a ≤ 0
    · exact ⟨"Please enter a valid amount", by rw [if_pos h0]⟩
    · refine ⟨"Deposit amount cannot exceed available balance", ?_⟩
      rw [if_neg h0, if_pos ha]

/-- Witness for C1: the single-deposit run [deposit 5] from an empty initial
state keeps both balances non-negative (the deposit is rejected, balances stay
0), and a deposit of 7 against shop balance 0 is rejected unchanged. -/
theorem balances_invariant_witness :
    nonNegBalances (run (initialDB []) [.deposit 5]) ∧
    ∃ msg, recordDeposit (run (initialDB []) [.deposit 5]) 7 =
      (run (initialDB []) [.deposit 5], some msg) := by
  have h := balances_invariant [] [.deposit 5]
    (by intro op hop; simp at hop; subst hop; trivial)
  exact ⟨h.1, h.2 7 (by decide)⟩

/-- Client-side category record (src/src/lib/store.ts lines 5-10): `id` and
`user_id` are optional in the TypeScript interface. -/
structure Category where
  id : Option String
  price : Int
  stock : Int
  user_id : Option String
deriving Repr, DecidableEq

/-- The `updateStock` dispatcher (src/src/lib/store.ts lines 427-453): returns
the resulting local category list and the remote write it issued (category id
and stock value), `none` when the guard `if (!category?.id) return` fired and
the server was never called; the guard also fires on an empty-string id, which
is falsy in JavaScript.  Both the optimistic local write and the remote write
use `Math.max(0, stock)`.  `remoteFails` abstracts the outcome of the awaited
remote call: on error the captured pre-call `categories` slice is restored
verbatim. -/
def updateStock (categories : List Category) (index : Nat) (stock : Int)
    (remoteFails : Bool) : List Category × Option (String × Int) :=
  match categories[index]? with
  | none => (categories, none)
  | some category =>
      match category.id with
      | none => (categories, none)
      | some cid =>
          if cid = "" then (categories, none)
          else if remoteFails then (categories, some (cid, max 0 stock))
          else (categories.set index { category with stock := max 0 stock },
                some (cid, max 0 stock))

/-- The `updatePrice` dispatcher (src/src/lib/store.ts lines 455-481): same
shape as `updateStock`, writing the new price without a clamp; on remote
failure the captured pre-call slice is restored verbatim. -/
def updatePrice (categories : List Category) (index : Nat) (newPrice : Int)
    (remoteFails : Bool) : List Category :=
  match categories[index]? with
  | none => categories
  | some category =>
      match category.id with
      | none => categories
      | some cid =>
          if cid = "" then categories
          else if remoteFails then categories
          else categories.set index { category with price := newPrice }

/-- The `deleteCategory` dispatcher (src/src/lib/store.ts lines 483-508):
optimistically removes the category at the index
(`categories.filter((_, i) => i !== index)`); on remote failure the captured
pre-call slice is restored verbatim. -/
def deleteCategory (categories : List Category) (index : Nat)
    (remoteFails : Bool) : List Category :=
  match categories[index]? with
  | none => categories
  | some category =>
      match category.id with
      | none => categories
      | some cid =>
          if cid = "" then categories
          else if remoteFails then categories
          else categories.eraseIdx index

/-- Stable ascending sort by price, modelling the JavaScript
`sort((a, b) => a.price - b.price)` (stable per the ECMAScript spec). -/
def sortByPrice (cats : List Category) : List Category :=
  List.insertionSort (fun a b => a.price ≤ b.price) cats

/-- The `addCategory` dispatcher (src/src/lib/store.ts lines 382-425):
optimistically appends a fresh category (new random uuid, stock 0) and
re-sorts by price; on remote failure it reverts with
`get().categories.filter(c => c.id !== newCategory.id)` — a filter of the
CURRENT (optimistic) list, not the captured pre-call slice; on success the
optimistic list stands until the refetch. -/
def addCategory (categories : List Category) (price : Int)
    (newId userId : String) (remoteFails : Bool) : List Category :=
  let newCategory : Category :=
    { id := some newId, price := price, stock := 0, user_id := some userId }
  let updatedCategories := sortByPrice (categories ++ [newCategory])
  if remoteFails then updatedCategories.filter (fun c => c.id ≠ some newId)
  else updatedCategories

/-- Counterexample to C7 as stated: with pre-call list [price 10, price 5]
(unsorted, as `updatePrice` leaves lists), a failed `addCategory` of price 7
does not restore the captured pre-call slice: the revert filters the sorted
optimistic list, yielding [price 5, price 10] — a reordering, i.e. a
recomputed value, not the captured slice. -/
theorem dispatcher_rollback_counterexample :
    addCategory
        [{ id := some "a", price := 10, stock := 0, user_id := none },
         { id := some "b", price := 5, stock := 0, user_id := none }]
        7 "c" "u" true ≠
      [{ id := some "a", price := 10, stock := 0, user_id := none },
       { id := some "b", price := 5, stock := 0, user_id := none }] := by decide

/-- C7 amended: for stock adjust, price adjust and category remove, a failed
remote call restores exactly the captured pre-mutation slice; for category
add, a failed remote call restores the optimistic list with the fresh id
filtered out, which is a permutation of the pre-call list (same categories,
re-sorted by price) rather than the captured slice itself. -/
theorem dispatcher_rollback (categories : List Category) :
    (∀ (index : Nat) (stock : Int),
       (updateStock categories index stock true).1 = categories) ∧
    (∀ (index : Nat) (newPrice : Int),
       updatePrice categories index newPrice true = categories) ∧
    (∀ index : Nat, deleteCategory categories index true = categories) ∧
    (∀ (price : Int) (newId userId : String),
       (∀ c ∈ categories, c.id ≠ some newId) →
       (addCategory categories price newId userId true).Perm categories) := by
  refine ⟨?_, ?_, ?_, ?_⟩
  · intro index stock
    cases hg : categories[index]? with
    | none => simp [updateStock, hg]
    | some category =>
        cases hid : category.id with
        | none => simp [updateStock, hg, hid]
        | some cid =>
            by_cases hcid : cid = "" <;> simp [updateStock, hg, hid, hcid]
  · intro index newPrice
    cases hg : categories[index]? with
    | none => simp [updatePrice, hg]
    | some category =>
        cases hid : category.id with
        | none => simp [updatePrice, hg, hid]
        | some cid =>
            by_cases hcid : cid = "" <;> simp [updatePrice, hg, hid, hcid]
  · intro index
    cases hg : categories[index]? with
    | none => simp [deleteCategory, hg]
    | some category =>
        cases hid : category.id with
        | none => simp [deleteCategory, hg, hid]
        | some cid =>
            by_cases hcid : cid = "" <;> simp [deleteCategory, hg, hid, hcid]
  · intro price newId userId hfresh
    show (List.filter (fun c => c.id ≠ some newId)
        (sortByPrice (categories ++
          [{ id := some newId, price := price, stock := 0,
             user_id := some userId }]))).Perm categories
    have hperm :
        (sortByPrice (categories ++
          [{ id := some newId, price := price, stock := 0,
             user_id := some userId }])).Perm
        (categories ++
          [{ id := some newId, price := price, stock := 0,
             user_id := some userId }]) :=
      List.perm_insertionSort _ _
    have h2 := hperm.filter (fun c => decide (c.id ≠ some newId))
    have h3 : List.filter (fun c => decide (c.id ≠ some newId))
        (categories ++
          [{ id := some newId, price := price, stock := 0,
             user_id := some userId }]) = categories := by
      rw [List.filter_append]
      have hall : List.filter (fun c => decide (c.id ≠ some newId)) categories =
          categories :=
        List.filter_eq_self.mpr (fun c hc => by simpa using hfresh c hc)
      have hnew : List.filter (fun c => decide (c.id ≠ some newId))
          [{ id := some newId, price := price, stock := 0,
             user_id := some userId }] = ([] : List Category) := by simp
      rw [hall, hnew, List.append_nil]
    rw [h3] at h2
    exact h2

/-- Witness for C7: a failed price adjust on a singleton list restores it
exactly, and a failed category add on the same list yields a permutation of
it. -/
theorem dispatcher_rollback_witness :
    updatePrice [{ id := some "a", price := 10, stock := 0, user_id := none }] 0 7 true =
      [{ id := some "a", price := 10, stock := 0, user_id := none }] ∧
    (addCategory [{ id := some "a", price := 10, stock := 0, user_id := none }]
        7 "c" "u" true).Perm
      [{ id := some "a", price := 10, stock := 0, user_id := none }] := by
  have h := dispatcher_rollback
    [{ id := some "a", price := 10, stock := 0, user_id := none }]
  exact ⟨h.2.1 0 7, h.2.2.2 7 "c" "u" (by decide)⟩

/-- Counterexample to C10 as stated: a category exists at index 0 but has no
id, so the guard `if (!category?.id) return` fires: updateStock(0, -4) applies
nothing at all — neither the clamped optimistic write (which would set stock
to max(0, -4) = 0) nor any remote update — although a category exists at that
index. -/
theorem updateStock_counterexample :
    updateStock [{ id := none, price := 5, stock := 3, user_id := none }]
        0 (-4) false =
      ([{ id := none, price := 5, stock := 3, user_id := none }], none) ∧
    ([{ id := none, price := 5, stock := 3, user_id := none }] : List Category) ≠
      [{ id := none, price := 5, stock := 0, user_id := none }] := by
  constructor
  · rfl
  · decide

/-- C10 amended: when the category at the index has a non-empty id, both the
optimistic local write and the remote update carry max(0, stock), so no
negative stock is ever written; when no category exists at the index, or the
category there has no id or an empty-string id, nothing changes and no remote
update is issued. -/
theorem updateStock_clamped (categories : List Category) (index : Nat) (stock : Int) :
    (∀ category cid, categories[index]? = some category →
       category.id = some cid → cid ≠ "" →
       updateStock categories index stock false =
         (categories.set index { category with stock := max 0 stock },
          some (cid, max 0 stock)) ∧
       0 ≤ max 0 stock) ∧
    (categories[index]? = none →
       ∀ rf, updateStock categories index stock rf = (categories, none)) ∧
    (∀ category, categories[index]? = some category →
       (category.id = none ∨ category.id = some "") →
       ∀ rf, updateStock categories index stock rf = (categories, none)) := by
  refine ⟨?_, ?_, ?_⟩
  · intro category cid hg hid hcid
    constructor
    · simp [updateStock, hg, hid, hcid]
    · exact le_max_left 0 stock
  · intro hg rf
    simp [updateStock, hg]
  · intro category hg hid rf
    rcases hid with hid | hid
    · simp [updateStock, hg, hid]
    · simp [updateStock, hg, hid]

/-- Witness for C10: updating index 0 of a singleton list (id "a", stock 3)
with stock -4 writes the clamped value 0 locally and remotely. -/
theorem updateStock_clamped_witness :
    updateStock [{ id := some "a", price := 5, stock := 3, user_id := none }]
        0 (-4) false =
      ([{ id := some "a", price := 5, stock := 0, user_id := none }],
       some ("a", 0)) := by
  have h := ((updateStock_clamped
    [{ id := some "a", price := 5, stock := 3, user_id := none }] 0 (-4)).1
    { id := some "a", price := 5, stock := 3, user_id := none } "a"
    rfl rfl (by decide)).1
  rw [h]
  decide

/-- The payment part of a processed sale (src/src/lib/store.ts lines 18-22). -/
structure PaymentData where
  cash : Int
  online : Int
  slipImage : Option String
deriving Repr, DecidableEq

/-- The denormalized creator attached to a fetched sale (src/src/lib/store.ts
lines 24-27). -/
structure CreatorData where
  name : String
  designation : String
deriving Repr, DecidableEq

/-- A processed sale row as held by the client store (src/src/lib/store.ts
lines 29-45). -/
structure Sale where
  id : String
  user_id : String
  created_by : String
  timestamp : String
  items : List SaleItem
  total : Int
  payment : PaymentData
  creator : CreatorData
deriving Repr, DecidableEq

/-- The client balances mirror (src/src/lib/store.ts lines 57-60). -/
structure Balances where
  shopBalance : Int
  bankBalance : Int
deriving Repr, DecidableEq

/-- The slice of the zustand store state that `fetchAllData` touches
(src/src/lib/store.ts lines 62-67, 91-99). -/
structure SyncState where
  categories : List Category
  sales : List Sale
  balances : Balances
  initialized : Bool
deriving Repr, DecidableEq

/-- The persisted localStorage cache: the two keys `cached_categories` and
`cached_balances` (src/src/lib/store.ts lines 107-108, 307-308). -/
structure Cache where
  cached_categories : Option (List Category)
  cached_balances : Option Balances
deriving Repr, DecidableEq

/-- The `fetchAllData` action (src/src/lib/store.ts lines 222-323): with no
authenticated user it returns silently; otherwise the three parallel fetches
resolve, their errors are checked in order (categories, sales, balances) and
the first error is thrown — reaching neither the cache writes nor the state
update, so state, cache and the `initialized` flag are untouched and the
error reaches the caller; only when all three succeed are the cache
overwritten and categories, sales, balances and `initialized := true`
installed in one `set` call.  Response payloads are the already-typed rows:
the JavaScript per-field String()/Number() normalization is the identity on
well-typed rows. -/
def fetchAllData (st : SyncState) (cache : Cache) (hasUser : Bool)
    (categoriesResponse : Except String (List Category))
    (salesResponse : Except String (List Sale))
    (balancesResponse : Except String Balances) :
    (SyncState × Cache) × Option String :=
  if !hasUser then ((st, cache), none)
  else
    match categoriesResponse with
    | .error e => ((st, cache), some e)
    | .ok categories =>
        match salesResponse with
        | .error e => ((st, cache), some e)
        | .ok sales =>
            match balancesResponse with
            | .error e => ((st, cache), some e)
            | .ok balances =>
                (({ categories := categories, sales := sales,
                    balances := balances, initialized := true },
                  { cached_categories := some categories,
                    cached_balances := some balances }), none)

/-- C8: if any of the three parallel fetches fails, `fetchAllData` leaves the
in-memory state and the persisted cache unchanged (in particular the layer is
not marked initialized) and surfaces the error to the caller; when all three
succeed, categories, sales and balances are replaced together with the cache
in a single atomic update that also sets `initialized`. -/
theorem fetchAllData_atomic (st : SyncState) (cache : Cache)
    (cr : Except String (List Category)) (sr : Except String (List Sale))
    (br : Except String Balances) :
    (((∃ e, cr = .error e) ∨ (∃ e, sr = .error e) ∨ (∃ e, br = .error e)) →
      ∃ e, fetchAllData st cache true cr sr br = ((st, cache), some e)) ∧
    (∀ categories sales balances,
      cr = .ok categories → sr = .ok sales → br = .ok balances →
      fetchAllData st cache true cr sr br =
        (({ categories := categories, sales := sales, balances := balances,
            initialized := true },
          { cached_categories := some categories,
            cached_balances := some balances }), none)) := by
  constructor
  · intro hfail
    cases cr with
    | error e => exact ⟨e, by simp [fetchAllData]⟩
    | ok categories =>
        cases sr with
        | error e => exact ⟨e, by simp [fetchAllData]⟩
        | ok sales =>
            cases br with
            | error e => exact ⟨e, by simp [fetchAllData]⟩
            | ok balances =>
                rcases hfail with ⟨e, he⟩ | ⟨e, he⟩ | ⟨e, he⟩ <;>
                  exact Except.noConfusion he
  · intro categories sales balances hc hs hb
    subst hc; subst hs; subst hb
    simp [fetchAllData]

/-- Witness for C8: with the sales fetch failing, state and cache come back
unchanged with the error; with all fetches succeeding, the fresh values are
installed atomically. -/
theorem fetchAllData_atomic_witness :
    (∃ e, fetchAllData
        { categories := [], sales := [],
          balances := { shopBalance := 1, bankBalance := 2 },
          initialized := false }
        { cached_categories := none, cached_balances := none }
        true (.ok []) (.error "network error")
        (.ok { shopBalance := 5, bankBalance := 6 }) =
      (({ categories := [], sales := [],
          balances := { shopBalance := 1, bankBalance := 2 },
          initialized := false },
        { cached_categories := none, cached_balances := none }), some e)) ∧
    fetchAllData
        { categories := [], sales := [],
          balances := { shopBalance := 1, bankBalance := 2 },
          initialized := false }
        { cached_categories := none, cached_balances := none }
        true (.ok []) (.ok [])
        (.ok { shopBalance := 5, bankBalance := 6 }) =
      (({ categories := [], sales := [],
          balances := { shopBalance := 5, bankBalance := 6 },
          initialized := true },
        { cached_categories := some [],
          cached_balances := some { shopBalance := 5, bankBalance := 6 } }),
       none) := by
  have h := fetchAllData_atomic
    { categories := [], sales := [],
      balances := { shopBalance := 1, bankBalance := 2 }, initialized := false }
    { cached_categories := none, cached_balances := none }
    (.ok []) (.error "network error") (.ok { shopBalance := 5, bankBalance := 6 })
  have h2 := fetchAllData_atomic
    { categories := [], sales := [],
      balances := { shopBalance := 1, bankBalance := 2 }, initialized := false }
    { cached_categories := none, cached_balances := none }
    (.ok []) (.ok []) (.ok { shopBalance := 5, bankBalance := 6 })
  exact ⟨h.1 (Or.inr (Or.inl ⟨"network error", rfl⟩)),
         h2.2 [] [] { shopBalance := 5, bankBalance := 6 } rfl rfl rfl⟩

/-- A `profiles` row (migration lines 11-22), restricted to the fields the
notification fan-out reads. -/
structure Profile where
  id : String
  name : String
  designation : String
  is_admin : Bool
  is_approved : Bool
deriving Repr, DecidableEq

/-- A `notifications` row (migration lines 92-101), restricted to recipient,
title and type; the formatted description and the jsonb metadata are
presentation payload. -/
structure Notification where
  user_id : String
  title : String
  ntype : String
deriving Repr, DecidableEq

/-- Look a profile up by id. -/
def findProfile : List Profile → String → Option Profile
  | [], _ => none
  | p :: ps, pid => if p.id == pid then some p else findProfile ps pid

/-- The `notify_expense` trigger function (migration lines 148-214), fired
after every insert into `expenses` (trigger `on_expense_notify`, lines
407-410): it reads the creator's designation; if it is the literal
'Store Manager' it inserts a notification for every approved profile other
than the creator, and in every other case (including 'Owner') it inserts one
for every profile whose designation is 'Owner' other than the creator.  Every
relevant auth.users row has a profiles row, so recipients are modelled over
the profiles table. -/
def notify_expense (profiles : List Profile) (created_by : String) :
    List Notification :=
  let creator := findProfile profiles created_by
  if creator.map (fun p => p.designation) = some "Store Manager" then
    (profiles.filter (fun p => p.id ≠ created_by ∧ p.is_approved)).map
      (fun p => { user_id := p.id, title := "New Expense", ntype := "expense" })
  else
    (profiles.filter (fun p => p.id ≠ created_by ∧ p.designation = "Owner")).map
      (fun p => { user_id := p.id, title := "New Expense", ntype := "expense" })

/-- C9: the expense notification fan-out is keyed on the creator's role — a
Store Manager's expense notifies exactly the approved actors other than the
creator, an Owner's expense notifies exactly the profiles whose designation
is Owner other than the creator. -/
theorem notify_expense_fanout (profiles : List Profile) (created_by : String)
    (creator : Profile)
    (hfind : findProfile profiles created_by = some creator) :
    (creator.designation = "Store Manager" →
      ∀ uid, (∃ n ∈ notify_expense profiles created_by, n.user_id = uid) ↔
        (∃ p ∈ profiles, p.id = uid ∧ p.id ≠ created_by ∧ p.is_approved = true)) ∧
    (creator.designation = "Owner" →
      ∀ uid, (∃ n ∈ notify_expense profiles created_by, n.user_id = uid) ↔
        (∃ p ∈ profiles, p.id = uid ∧ p.id ≠ created_by ∧
          p.designation = "Owner")) := by
  constructor
  · intro hsm uid
    unfold notify_expense
    rw [hfind]
    simp only [Option.map_some]
    rw [if_pos (by simp [hsm])]
    simp only [List.mem_map, List.mem_filter]
    constructor
    · rintro ⟨n, ⟨p, hp, hpn⟩, hn⟩
      subst hpn
      simp only [decide_eq_true_eq, Bool.and_eq_true, decide_not] at hp
      exact ⟨p, hp.1, hn, by simpa using hp.2.1, by simpa using hp.2.2⟩
    · rintro ⟨p, hp, rfl, hne, happ⟩
      refine ⟨{ user_id := p.id, title := "New Expense", ntype := "expense" },
        ⟨p, ?_, rfl⟩, rfl⟩
      simp [hp, hne, happ]
  · intro hown uid
    unfold notify_expense
    rw [hfind]
    simp only [Option.map_some]
    rw [if_neg (by simp [hown])]
    simp only [List.mem_map, List.mem_filter]
    constructor
    · rintro ⟨n, ⟨p, hp, hpn⟩, hn⟩
      subst hpn
      simp only [decide_eq_true_eq, Bool.and_eq_true, decide_not] at hp
      exact ⟨p, hp.1, hn, by simpa using hp.2.1, by simpa using hp.2.2⟩
    · rintro ⟨p, hp, rfl, hne, hdes⟩
      refine ⟨{ user_id := p.id, title := "New Expense", ntype := "expense" },
        ⟨p, ?_, rfl⟩, rfl⟩
      simp [hp, hne, hdes]

/-- Witness for C9: with a Store Manager creator "m" and an approved Owner
"o", the expense notification for "o" is produced. -/
theorem notify_expense_fanout_witness :
    ∃ n ∈ notify_expense
        [{ id := "m", name := "M", designation := "Store Manager",
           is_admin := false, is_approved := true },
         { id := "o", name := "O", designation := "Owner",
           is_admin := false, is_approved := true }] "m",
      n.user_id = "o" := by
  have h := (notify_expense_fanout
    [{ id := "m", name := "M", designation := "Store Manager",
       is_admin := false, is_approved := true },
     { id := "o", name := "O", designation := "Owner",
       is_admin := false, is_approved := true }] "m"
    { id := "m", name := "M", designation := "Store Manager",
      is_admin := false, is_approved := true }
    rfl).1 rfl "o"
  apply h.mpr
  refine ⟨{ id := "o", name := "O", designation := "Owner",
            is_admin := false, is_approved := true }, ?_, rfl, ?_, rfl⟩
  · simp
  · decide

/-- The `handleSubmit` expense handler (src/src/components/Expenses.tsx lines
294-369), the program's only live expense-commit path — the routed Expenses
screen inserts the row DIRECTLY into the expenses table (line 341); it never
calls `handle_expense` (the store's `addExpense`, the procedure's sole
wrapper, is invoked by no component, and its RPC argument names p_user_id,
p_purpose, p_cash_amount, p_online_amount do not match the procedure's
signature user_id, expense_purpose, cash_amt, online_amt).  The handler
validates `cash + online = amount` client-side and then inserts; the
migration defines no balance-update trigger on expenses (only
on_expense_notify), so the insert leaves both balances untouched. -/
def expensesHandleSubmit (db : DB) (p : String)
    (amount cash_amt online_amt : Int) : DB × Option String :=
  if cash_amt + online_amt ≠ amount then
    (db, some "Cash amount + Online amount must equal total amount")
  else
    ({ db with expenses := db.expenses ++
        [{ purpose := p, amount := amount, cash_amount := cash_amt,
           online_amount := online_amt }] }, none)

/-- C3: the claim holds of the stored procedure `handle_expense` but not of
the program — the live expense path commits (no error) the expense row with
amount = cash + online, yet leaves shop_balance and bank_balance exactly as
they were, with no locked-snapshot validation: against balances (100, 50),
committing cash 30 / online 20 through Expenses.tsx keeps shop_balance at
100, while the claim requires 100 - 30; the decrementing procedure is dead
code. -/
theorem expensesHandleSubmit_no_decrement :
    expensesHandleSubmit
        { balances := { shop_balance := 100, bank_balance := 50 },
          categories := [], expenses := [] } "rent" 50 30 20 =
      ({ balances := { shop_balance := 100, bank_balance := 50 },
         categories := [],
         expenses := [{ purpose := "rent", amount := 50, cash_amount := 30,
                        online_amount := 20 }] }, none) ∧
    (100 : Int) ≠ 100 - 30 := by
  exact ⟨rfl, by decide⟩
